import Mathlib

/-!
# Verification of the Cosmos `Ingest` pipeline (`cosmos/ingestion/ingest/ingest.py`)

Shallow embedding of the `Ingest` orchestration class: the result collector
(`_ingest_local`, lines 94-119), the stage chain (lines 81-91), the
rasterization wrapper `pdf_to_images` (lines 192-260) with its error handling,
glob-based page collection and geometry rescaling, and the `ingest` dispatch
(lines 59-68).  External collaborators (dask stage implementations, `parse_pdf`,
ghostscript, `aggregate_router`) are modelled at their interface boundary.
Numeric values that are Python floats in the source are modelled as rationals.
-/

deriving instance DecidableEq for Except

namespace Cosmos

/-- A Python-level exception, as used by the ingestion code paths we model. -/
inductive PyErr where
  /-- `TypeError` (caught separately at ingest.py line 200). -/
  | typeError (msg : String)
  /-- `ValueError`, e.g. from unpacking `zip(*cls)` when `cls` is empty. -/
  | valueError (msg : String)
  /-- `IndexError`, e.g. `obj['xgboost_content'][ind]` out of range or `x[0]` on `[]`. -/
  | indexError (msg : String)
  /-- `KeyError`, e.g. selecting a column absent from an empty DataFrame. -/
  | keyError (msg : String)
  /-- `raise Exception(f'{image}')` at ingest.py line 223. -/
  | exception (msg : String)
  /-- `NotImplementedError` raised by `_ingest_distributed` (line 128). -/
  | notImplementedError (msg : String)
  /-- Configuration error raised by the (spec-modelled) aggregation router on
  an unregistered aggregation name. -/
  | configurationError (msg : String)
  /-- Any other exception raised by `parse_pdf` (caught at line 204). -/
  | otherError (msg : String)
  deriving DecidableEq, Repr

/-- One element of a page object's `content` list (ingest.py line 99:
`bb, cls, text = c`): a bounding box, a list of `(score, class)` pairs
(line 100 unpacks `scores, classes = zip(*cls)`), and extracted text. -/
structure Detection where
  bb : List ℚ
  cls : List (ℚ × String)
  text : String
  deriving DecidableEq, Repr

/-- One element of a page object's `xgboost_content` list.  Line 105 unpacks it
as a 4-tuple `_, postprocess_cls, _, postprocess_score`; only the second and
fourth components are read by the collector. -/
structure XgRow where
  comp0 : ℚ
  cls : String
  comp2 : ℚ
  score : ℚ
  deriving DecidableEq, Repr

/-- The stage-dependent part of a serialized page artifact: the `content`
detections and the optional `xgboost_content` list (present exactly when the
xgboost postprocess stage ran, checked by `'xgboost_content' in obj` at
line 104).  Stage implementations transform this payload. -/
structure PagePayload where
  content : List Detection
  xgboost_content : Option (List XgRow)
  deriving DecidableEq, Repr

/-- A deserialized page artifact as read by the collector loop (lines 95-116):
document/page identity fields plus the stage payload. -/
structure PageObj where
  pdf_name : String
  dataset_id : String
  page_num : Nat
  payload : PagePayload
  deriving DecidableEq, Repr

/-- One row of the result table, as built at lines 106-115. -/
structure ResultRow where
  pdf_name : String
  dataset_id : String
  page_num : Nat
  bounding_box : List ℚ
  classes : List String
  scores : List ℚ
  content : String
  postprocess_cls : Option String
  postprocess_score : Option ℚ
  deriving DecidableEq, Repr

/-- A result row after the derived columns are added (lines 118-119):
`detect_cls = classes[0]`, `detect_score = scores[0]`. -/
structure FinalRow extends ResultRow where
  detect_cls : String
  detect_score : ℚ
  deriving DecidableEq, Repr

/-- Sequential effectful map: models a Python loop / list comprehension where
the first raised exception propagates and aborts the traversal. -/
def mapE (f : α → Except PyErr β) : List α → Except PyErr (List β)
  | [] => .ok []
  | x :: xs => do
    let y ← f x
    let ys ← mapE f xs
    .ok (y :: ys)

/-- Body of the collector loop for one enumerated detection (lines 99-116):
unpack the triple, unzip `cls` into parallel `scores`/`classes` lists
(`zip(*cls)` raises `ValueError` on an empty `cls`), pull
`xgboost_content[ind]` when that key is present (`IndexError` when `ind` is
out of range), and build the row record. -/
def rowOfDetection (pdf_name dataset_id : String) (page_num : Nat)
    (xg : Option (List XgRow)) (ind : Nat) (c : Detection) :
    Except PyErr ResultRow :=
  match c.cls with
  | [] => .error (.valueError "not enough values to unpack")
  | _ :: _ =>
    let scores := c.cls.map Prod.fst
    let classes := c.cls.map Prod.snd
    match xg with
    | none =>
      .ok { pdf_name := pdf_name, dataset_id := dataset_id, page_num := page_num,
            bounding_box := c.bb, classes := classes, scores := scores,
            content := c.text, postprocess_cls := none, postprocess_score := none }
    | some xs =>
      match xs[ind]? with
      | none => .error (.indexError "list index out of range")
      | some x =>
        .ok { pdf_name := pdf_name, dataset_id := dataset_id, page_num := page_num,
              bounding_box := c.bb, classes := classes, scores := scores,
              content := c.text, postprocess_cls := some x.cls,
              postprocess_score := some x.score }

/-- The collector loop `for ind, c in enumerate(obj['content'])` (line 98),
carrying the running enumeration index. -/
def rowsOfContent (pdf_name dataset_id : String) (page_num : Nat)
    (xg : Option (List XgRow)) : Nat → List Detection → Except PyErr (List ResultRow)
  | _, [] => .ok []
  | ind, c :: rest => do
    let r ← rowOfDetection pdf_name dataset_id page_num xg ind c
    let rs ← rowsOfContent pdf_name dataset_id page_num xg (ind + 1) rest
    .ok (r :: rs)

/-- All rows contributed by one page artifact. -/
def rowsOfObj (obj : PageObj) : Except PyErr (List ResultRow) :=
  rowsOfContent obj.pdf_name obj.dataset_id obj.page_num
    obj.payload.xgboost_content 0 obj.payload.content

/-- The whole collector (lines 94-116): rows of every artifact, concatenated
in order. -/
def collectRows (objs : List PageObj) : Except PyErr (List ResultRow) :=
  Except.bind (mapE rowsOfObj objs) (fun rss => Except.ok rss.flatten)

/-- Lines 117-119: build the DataFrame and add the derived columns
`detect_cls = classes[0]`, `detect_score = scores[0]`.  On an empty result
list `pd.DataFrame([])` has no columns, so selecting `result_df['classes']`
raises `KeyError`; on a row with an empty `classes` list, `x[0]` raises
`IndexError`. -/
def addDerived (rows : List ResultRow) : Except PyErr (List FinalRow) :=
  match rows with
  | [] => .error (.keyError "classes")
  | _ :: _ =>
    mapE (fun r =>
      match r.classes.head?, r.scores.head? with
      | some c, some s => .ok { toResultRow := r, detect_cls := c, detect_score := s }
      | _, _ => .error (.indexError "list index out of range")) rows

/-! ## Stage chain (`_ingest_local`, lines 81-91) -/

/-- A pipeline stage as submitted by `_ingest_local`.  `propose` carries the
`visualize_proposals` argument bound by `functools.partial` at line 81;
`poolText` carries the `skip_ocr` argument bound at line 86. -/
inductive Stage where
  | propose (visualize : Bool)
  | detect
  | regroup
  | poolText (skip_ocr : Bool)
  | xgboostPostprocess
  | rulesPostprocess
  deriving DecidableEq, Repr

/-- The stage-enable flags stored on the `Ingest` object (lines 46-48). -/
structure IngestConfig where
  use_semantic_detection : Bool
  use_xgboost_postprocess : Bool
  use_rules_postprocess : Bool
  deriving DecidableEq, Repr

/-- The sequence of stage maps submitted by `_ingest_local` (lines 81-91):
`propose_and_pad` always; under `use_semantic_detection`, `detect`, `regroup`
and `pool_text`; nested inside that branch, `xgboost_postprocess` under
`use_xgboost_postprocess`, and nested further, `rules_postprocess` under
`use_rules_postprocess`. -/
def stageChain (cfg : IngestConfig) (visualize skip_ocr : Bool) : List Stage :=
  Stage.propose visualize ::
    (if cfg.use_semantic_detection then
      [Stage.detect, Stage.regroup, Stage.poolText skip_ocr] ++
        (if cfg.use_xgboost_postprocess then
          Stage.xgboostPostprocess ::
            (if cfg.use_rules_postprocess then [Stage.rulesPostprocess] else [])
        else [])
    else [])

/-! ## Rasterization wrapper `pdf_to_images` (lines 192-260): page collection

Ghostscript is invoked with output pattern `{tmp_dir}/{pdf_name}_%d`
(line 214) and its exit status is never checked; the pages picked up
afterwards are the files matching the glob `{tmp_dir}/{pdf_name}_?`
(line 218), whose final character is parsed as the page number
(line 221), any non-digit raising `Exception` (line 223). -/

/-- The glob pattern `{pdf_name}_?` (line 218): matches exactly the file
names of the form `pdf_name` + `_` + one single character. -/
def globMatch (pdf_name f : String) : Bool :=
  f.data.length == pdf_name.data.length + 2 &&
    f.data.take (pdf_name.data.length + 1) == pdf_name.data ++ ['_']

/-- Python `int(c)` on a one-character string: the digit value for `'0'`-`'9'`,
failure otherwise. -/
def charToDigit (c : Char) : Option Nat :=
  if '0' ≤ c && c ≤ '9' then some (c.toNat - 48) else none

/-- Line 221, `page_num = int(image[-1])`: the last character of the matched
file name parsed as a digit; a non-digit raises `Exception(f'{image}')`
(line 223).  (A matched name is never empty, so the `none` branch of
`getLast?` is unreachable; it is mapped to the same exception.) -/
def pageNumOf (f : String) : Except PyErr Nat :=
  match f.data.getLast? with
  | none => .error (.exception f)
  | some c =>
    match charToDigit c with
    | some n => .ok n
    | none => .error (.exception f)

/-- One input document together with the behaviour of the external
collaborators invoked for it: the outcome of `parse_pdf` (line 198) and the
files present in the images tmp directory after the ghostscript run
(lines 208-216), plus ghostscript's exit status (which the source never
inspects: `subprocess.run` is called without `check`). -/
structure Doc where
  pdf_name : String
  parse : Except PyErr Unit
  gsFiles : List String
  gsExitCode : Nat
  deriving DecidableEq, Repr

/-- `pdf_to_images` (lines 192-260), at work-item granularity: a `TypeError`
or any other exception from `parse_pdf` is caught and the document yields `[]`
(lines 200-207); otherwise the files matching `{pdf_name}_?` are collected and
each contributes the work item `(pdf_name, page_num)` (line 257), a non-digit
final character raising `Exception` (line 223), which nothing catches. -/
def pdf_to_images_m (doc : Doc) : Except PyErr (List (String × Nat)) :=
  match doc.parse with
  | .error _ => .ok []
  | .ok _ =>
    mapE (fun f =>
        Except.bind (pageNumOf f) (fun n => Except.ok (doc.pdf_name, n)))
      (doc.gsFiles.filter (globMatch doc.pdf_name))

/-- Lines 74-79: gather the per-document rasterization results (`i.result()`
re-raises the first exception) and flatten the page lists into one work-item
collection. -/
def runItems (docs : List Doc) : Except PyErr (List (String × Nat)) :=
  Except.bind (mapE pdf_to_images_m docs) (fun pages => Except.ok pages.flatten)

/-! ## Stage execution and the `_ingest_local` run -/

/-- The external stage implementations (`propose_and_pad`, `detect`,
`regroup`, `pool_text`, `xgboost_postprocess`, `rules_postprocess`), which
live outside this repository.  Modelled from the spec: each stage is a
transformation of the per-page payload that preserves the document/page
identity fields written at rasterization time. -/
def StageEnv : Type := Stage → PagePayload → PagePayload

/-- Apply the configured stage chain to one work item's payload, starting from
the artifact written by `pdf_to_images` (which carries no `content` and no
`xgboost_content`), and produce the terminal page artifact read back by the
collector. -/
def terminalObj (env : StageEnv) (chain : List Stage) (dataset_id : String)
    (item : String × Nat) : PageObj :=
  { pdf_name := item.1, dataset_id := dataset_id, page_num := item.2,
    payload := chain.foldl (fun p s => env s p) ⟨[], none⟩ }

/-- Observable steps of a `_ingest_local` run, used to order failures against
the work performed. -/
inductive Event where
  | rasterize (pdf_name : String)
  | stageRun (s : Stage)
  | collect
  | aggregateCall (name : String)
  | writeParquet
  deriving DecidableEq, Repr

/-- The aggregation loop (lines 120-123).  `aggregate_router` itself lives
outside this repository; modelled from the spec: a registered name produces
its aggregate view, an unregistered name fails with a configuration error.
Returns the aggregation calls performed and the name that failed, if any. -/
def runAggs (registered : List String) : List String → List Event × Option String
  | [] => ([], none)
  | a :: rest =>
    if a ∈ registered then
      let (es, r) := runAggs registered rest
      (Event.aggregateCall a :: es, r)
    else
      ([Event.aggregateCall a], some a)

/-- The rasterization submissions performed at line 74: one per document, all
before any result is awaited. -/
def rasterEvents (docs : List Doc) : List Event :=
  docs.map (fun d => Event.rasterize d.pdf_name)

/-- The events of a run that reached the collector: every rasterization, every
configured stage map, and the collection/derivation step (lines 74-119). -/
def fullWorkEvents (cfg : IngestConfig) (visualize skip_ocr : Bool)
    (docs : List Doc) : List Event :=
  rasterEvents docs ++ (stageChain cfg visualize skip_ocr).map Event.stageRun
    ++ [Event.collect]

/-- Lines 94-119 applied to the surviving work items: run the stage chain on
each item's payload, read back the terminal artifacts, collect the rows and
add the derived columns. -/
def collectAndDerive (env : StageEnv) (cfg : IngestConfig)
    (visualize skip_ocr : Bool) (dataset_id : String)
    (items : List (String × Nat)) : Except PyErr (List FinalRow) :=
  Except.bind
    (collectRows (items.map (terminalObj env (stageChain cfg visualize skip_ocr) dataset_id)))
    addDerived

/-- `_ingest_local` (lines 70-125) end to end: rasterize every document
(all submissions happen before any result is awaited, so every document is
rasterized even when an earlier one raised), flatten to work items, apply the
configured stage chain, collect the rows, add the derived columns, then run
the requested aggregations and write the result table.  The first uncaught
exception aborts the run at its phase boundary.  Returns the events that
actually happened together with the outcome. -/
def ingestLocalTrace (env : StageEnv) (cfg : IngestConfig)
    (visualize skip_ocr : Bool) (dataset_id : String) (docs : List Doc)
    (aggregations registered : List String) :
    List Event × Except PyErr (List FinalRow) :=
  match runItems docs with
  | .error e => (rasterEvents docs, .error e)
  | .ok items =>
    match collectAndDerive env cfg visualize skip_ocr dataset_id items with
    | .error e => (fullWorkEvents cfg visualize skip_ocr docs, .error e)
    | .ok finals =>
      match runAggs registered aggregations with
      | (aggEvents, some bad) =>
        (fullWorkEvents cfg visualize skip_ocr docs ++ aggEvents,
          .error (.configurationError bad))
      | (aggEvents, none) =>
        (fullWorkEvents cfg visualize skip_ocr docs ++ aggEvents
            ++ [Event.writeParquet],
          .ok finals)

/-- `Ingest.ingest` (lines 59-68): dispatch on `tmp_dir`.  With a tmp
directory the local path runs; without one, `_ingest_distributed` raises
`NotImplementedError` (line 128) before touching any document. -/
def ingestDispatch (tmp_dir : Option String) (env : StageEnv)
    (cfg : IngestConfig) (visualize skip_ocr : Bool) (dataset_id : String)
    (docs : List Doc) (aggregations registered : List String) :
    List Event × Except PyErr (List FinalRow) :=
  match tmp_dir with
  | some _ =>
    ingestLocalTrace env cfg visualize skip_ocr dataset_id docs aggregations registered
  | none =>
    ([], .error (.notImplementedError
      "Distributed setup currently not implemented via Ingest class. Set a tmp directory."))

/-! ## Geometry rescaling inside `pdf_to_images` (lines 228-249) -/

/-- One row of the geometry metadata table returned by `parse_pdf`: a page
index (0-based, compared against `page_num - 1` at lines 243-246) and the four
box coordinates in original page coordinates. -/
structure MetaRow where
  page : Int
  x1 : ℚ
  y1 : ℚ
  x2 : ℚ
  y2 : ℚ
  deriving DecidableEq, Repr

/-- The parsed pdf limit (the document's declared page box) whose components
`limit[2]` and `limit[3]` supply the original page extents at lines 234-235. -/
structure PdfLimit where
  c0 : ℚ
  c1 : ℚ
  c2 : ℚ
  c3 : ℚ
  deriving DecidableEq, Repr

/-- Lines 228-249 for one page: start from the decoded raster's pixel size
(`orig_w, orig_h = img.size`, line 228); when geometry metadata is present,
overwrite the original extents with the declared page box (`orig_w = limit[2]`,
`orig_h = limit[3]`, lines 234-235), form the per-axis scale factors
`scale_w = w / orig_w`, `scale_h = h / orig_h` (lines 236-237) and rescale the
coordinates of the metadata rows belonging to this page (`meta2.loc[meta2.page
== (page_num-1), ...]`, lines 243-246), leaving other rows unchanged.  Returns
the `orig_w`/`orig_h` recorded in the page artifact and the rescaled metadata
`meta2` (`None` when there is no metadata, line 229). -/
def processPageGeometry (meta : Option (List MetaRow)) (limit : PdfLimit)
    (decoded_w decoded_h : ℚ) (w h : ℚ) (page_num : Nat) :
    ℚ × ℚ × Option (List MetaRow) :=
  match meta with
  | none => (decoded_w, decoded_h, none)
  | some rows =>
    let orig_w := limit.c2
    let orig_h := limit.c3
    let scale_w := w / orig_w
    let scale_h := h / orig_h
    let rows2 := rows.map (fun r =>
      if r.page = (page_num : Int) - 1 then
        { r with x1 := r.x1 * scale_w, x2 := r.x2 * scale_w,
                 y1 := r.y1 * scale_h, y2 := r.y2 * scale_h }
      else r)
    (orig_w, orig_h, some rows2)

/-! ## Decimal page-number rendering (for the glob `_?` page filter) -/

/-- The decimal digit list of a natural number, most significant first: models
how Python's `%d`/f-string formatting renders the page number that ghostscript
appends to each output file name. -/
def decDigits (n : Nat) : List Nat :=
  if _h : n < 10 then [n]
  else decDigits (n / 10) ++ [n % 10]
decreasing_by
  exact Nat.div_lt_self (by omega) (by omega)

/-- The file name ghostscript produces for page `p` of `pdf_name` under the
output pattern `{pdf_name}_%d` (line 214). -/
def pageFileName (pdf_name : String) (p : Nat) : String :=
  pdf_name ++ "_" ++ String.mk ((decDigits p).map Nat.digitChar)

/-- The ghostscript output files for a document rendering pages `1..numPages`. -/
def gsPageFiles (pdf_name : String) (numPages : Nat) : List String :=
  (List.range' 1 numPages).map (pageFileName pdf_name)

/-! ## Basic lemmas about `mapE` -/

theorem mapE_nil (f : α → Except PyErr β) : mapE f [] = .ok [] := rfl

theorem mapE_cons (f : α → Except PyErr β) (x : α) (xs : List α) :
    mapE f (x :: xs) =
      Except.bind (f x) (fun y =>
        Except.bind (mapE f xs) (fun ys => Except.ok (y :: ys))) := rfl

theorem mapE_ok_mem {f : α → Except PyErr β} :
    ∀ {xs : List α} {ys : List β}, mapE f xs = .ok ys →
      ∀ y ∈ ys, ∃ x ∈ xs, f x = .ok y := by
  intro xs
  induction xs with
  | nil => intro ys h y hy; simp [mapE] at h; subst h; simp at hy
  | cons x xs ih =>
    intro ys h y hy
    rw [mapE_cons] at h
    cases hx : f x with
    | error e => rw [hx] at h; simp [Except.bind] at h
    | ok y0 =>
      rw [hx] at h
      cases hxs : mapE f xs with
      | error e => rw [hxs] at h; simp [Except.bind] at h
      | ok ys0 =>
        rw [hxs] at h
        simp [Except.bind, pure, Except.pure] at h
        subst h
        rcases List.mem_cons.mp hy with rfl | hy'
        · exact ⟨x, by simp, hx⟩
        · obtain ⟨x', hx', hfx'⟩ := ih hxs y hy'
          exact ⟨x', by simp [hx'], hfx'⟩

theorem mapE_ok_length {f : α → Except PyErr β} :
    ∀ {xs : List α} {ys : List β}, mapE f xs = .ok ys → ys.length = xs.length := by
  intro xs
  induction xs with
  | nil => intro ys h; simp [mapE] at h; subst h; rfl
  | cons x xs ih =>
    intro ys h
    rw [mapE_cons] at h
    cases hx : f x with
    | error e => rw [hx] at h; simp [Except.bind] at h
    | ok y0 =>
      rw [hx] at h
      cases hxs : mapE f xs with
      | error e => rw [hxs] at h; simp [Except.bind] at h
      | ok ys0 =>
        rw [hxs] at h
        simp [Except.bind, pure, Except.pure] at h
        subst h
        simp [ih hxs]

theorem mapE_ok_getElem {f : α → Except PyErr β} :
    ∀ {xs : List α} {ys : List β}, mapE f xs = .ok ys →
      ∀ (j : Nat) (y : β) (x : α), ys[j]? = some y → xs[j]? = some x → f x = .ok y := by
  intro xs
  induction xs with
  | nil => intro ys h j y x hy hx; simp at hx
  | cons x0 xs ih =>
    intro ys h j y x hy hx
    rw [mapE_cons] at h
    cases hx0 : f x0 with
    | error e => rw [hx0] at h; simp [Except.bind] at h
    | ok y0 =>
      rw [hx0] at h
      cases hxs : mapE f xs with
      | error e => rw [hxs] at h; simp [Except.bind] at h
      | ok ys0 =>
        rw [hxs] at h
        simp [Except.bind, pure, Except.pure] at h
        subst h
        cases j with
        | zero =>
          simp at hy hx
          subst hy; subst hx
          exact hx0
        | succ j =>
          simp at hy hx
          exact ih hxs j y x hy hx

theorem mapE_ok_of_forall {f : α → Except PyErr β} :
    ∀ {xs : List α}, (∀ x ∈ xs, ∃ y, f x = .ok y) →
      ∃ ys, mapE f xs = .ok ys := by
  intro xs
  induction xs with
  | nil => intro _; exact ⟨[], rfl⟩
  | cons x xs ih =>
    intro h
    obtain ⟨y, hy⟩ := h x (by simp)
    obtain ⟨ys, hys⟩ := ih (fun x' hx' => h x' (by simp [hx']))
    exact ⟨y :: ys, by rw [mapE_cons, hy, hys]; rfl⟩

theorem mapE_error_mem {f : α → Except PyErr β} :
    ∀ {xs : List α} {e : PyErr}, mapE f xs = .error e →
      ∃ x ∈ xs, f x = .error e := by
  intro xs
  induction xs with
  | nil => intro e h; simp [mapE] at h
  | cons x xs ih =>
    intro e h
    rw [mapE_cons] at h
    cases hx : f x with
    | error e0 =>
      rw [hx] at h
      simp [Except.bind] at h
      exact ⟨x, by simp, by rw [hx, h]⟩
    | ok y0 =>
      rw [hx] at h
      cases hxs : mapE f xs with
      | error e0 =>
        rw [hxs] at h
        simp [Except.bind] at h
        obtain ⟨x', hx', hfx'⟩ := ih (hxs.trans (by rw [h]))
        exact ⟨x', by simp [hx'], hfx'⟩
      | ok ys0 =>
        rw [hxs] at h
        simp [Except.bind, pure, Except.pure] at h

theorem mapE_congr_ok {f : α → Except PyErr β} {g : α → β} :
    ∀ {xs : List α}, (∀ x ∈ xs, f x = .ok (g x)) →
      mapE f xs = .ok (xs.map g) := by
  intro xs
  induction xs with
  | nil => intro _; rfl
  | cons x xs ih =>
    intro h
    rw [mapE_cons, h x (by simp), ih (fun x' hx' => h x' (by simp [hx']))]
    rfl

theorem mapE_map (f : β → Except PyErr γ) (g : α → β) :
    ∀ (xs : List α), mapE f (xs.map g) = mapE (fun x => f (g x)) xs := by
  intro xs
  induction xs with
  | nil => rfl
  | cons x xs ih => simp [List.map_cons, mapE_cons, ih]


/-! ## Collector lemmas -/

theorem rowsOfContent_nil (n d : String) (pn : Nat) (xg : Option (List XgRow)) (i : Nat) :
    rowsOfContent n d pn xg i [] = .ok [] := rfl

theorem rowsOfContent_cons (n d : String) (pn : Nat) (xg : Option (List XgRow))
    (i : Nat) (c : Detection) (rest : List Detection) :
    rowsOfContent n d pn xg i (c :: rest) =
      Except.bind (rowOfDetection n d pn xg i c) (fun r =>
        Except.bind (rowsOfContent n d pn xg (i + 1) rest) (fun rs =>
          Except.ok (r :: rs))) := rfl

theorem collectRows_eq (objs : List PageObj) :
    collectRows objs =
      Except.bind (mapE rowsOfObj objs) (fun rss => Except.ok rss.flatten) := rfl

theorem rowOfDetection_ok_spec {n d : String} {pn : Nat} {xg : Option (List XgRow)}
    {i : Nat} {c : Detection} {r : ResultRow}
    (h : rowOfDetection n d pn xg i c = .ok r) :
    r.pdf_name = n ∧ r.dataset_id = d ∧ r.page_num = pn ∧
    r.bounding_box = c.bb ∧ r.content = c.text ∧
    r.classes = c.cls.map Prod.snd ∧ r.scores = c.cls.map Prod.fst ∧
    c.cls ≠ [] ∧
    (xg = none → r.postprocess_cls = none ∧ r.postprocess_score = none) ∧
    (∀ xs, xg = some xs →
      ∃ x, xs[i]? = some x ∧ r.postprocess_cls = some x.cls ∧
        r.postprocess_score = some x.score) := by
  obtain ⟨bb, cls, text⟩ := c
  cases cls with
  | nil => exact absurd h (by simp [rowOfDetection])
  | cons p ps =>
    cases xg with
    | none =>
      simp only [rowOfDetection, Except.ok.injEq] at h
      subst h
      refine ⟨rfl, rfl, rfl, rfl, rfl, rfl, rfl, by simp, fun _ => ⟨rfl, rfl⟩, ?_⟩
      intro xs hxs; cases hxs
    | some xs =>
      simp only [rowOfDetection] at h
      cases hx : xs[i]? with
      | none => rw [hx] at h; exact absurd h (by simp)
      | some x =>
        rw [hx] at h
        simp only [Except.ok.injEq] at h
        subst h
        refine ⟨rfl, rfl, rfl, rfl, rfl, rfl, rfl, by simp, ?_, ?_⟩
        · intro hn; cases hn
        · intro xs' hxs'
          cases hxs'
          exact ⟨x, hx, rfl, rfl⟩

theorem rowOfDetection_exists {n d : String} {pn : Nat} {xg : Option (List XgRow)}
    {i : Nat} {c : Detection} (hcls : c.cls ≠ [])
    (hxg : ∀ xs, xg = some xs → i < xs.length) :
    ∃ r, rowOfDetection n d pn xg i c = .ok r := by
  obtain ⟨bb, cls, text⟩ := c
  cases cls with
  | nil => exact absurd rfl hcls
  | cons p ps =>
    cases xg with
    | none => exact ⟨_, rfl⟩
    | some xs =>
      simp only [rowOfDetection]
      cases hx : xs[i]? with
      | none =>
        rw [List.getElem?_eq_none_iff] at hx
        exact absurd (hxg xs rfl) (by omega)
      | some x => exact ⟨_, rfl⟩

theorem rowsOfContent_ok_mem {n d : String} {pn : Nat} {xg : Option (List XgRow)} :
    ∀ {i : Nat} {content : List Detection} {rows : List ResultRow},
      rowsOfContent n d pn xg i content = .ok rows →
      ∀ r ∈ rows, ∃ j c, rowOfDetection n d pn xg j c = .ok r := by
  intro i content
  induction content generalizing i with
  | nil =>
    intro rows h r hr
    rw [rowsOfContent_nil] at h
    simp only [Except.ok.injEq] at h
    subst h; simp at hr
  | cons c rest ih =>
    intro rows h r hr
    rw [rowsOfContent_cons] at h
    cases hc : rowOfDetection n d pn xg i c with
    | error e => rw [hc] at h; simp [Except.bind] at h
    | ok r0 =>
      rw [hc] at h
      cases hrest : rowsOfContent n d pn xg (i + 1) rest with
      | error e => rw [hrest] at h; simp [Except.bind] at h
      | ok rs0 =>
        rw [hrest] at h
        simp only [Except.bind, Except.ok.injEq] at h
        subst h
        rcases List.mem_cons.mp hr with rfl | hr'
        · exact ⟨i, c, hc⟩
        · exact ih hrest r hr'

theorem rowsOfContent_length {n d : String} {pn : Nat} {xg : Option (List XgRow)} :
    ∀ {i : Nat} {content : List Detection} {rows : List ResultRow},
      rowsOfContent n d pn xg i content = .ok rows →
      rows.length = content.length := by
  intro i content
  induction content generalizing i with
  | nil =>
    intro rows h
    rw [rowsOfContent_nil] at h
    simp only [Except.ok.injEq] at h
    subst h; rfl
  | cons c rest ih =>
    intro rows h
    rw [rowsOfContent_cons] at h
    cases hc : rowOfDetection n d pn xg i c with
    | error e => rw [hc] at h; simp [Except.bind] at h
    | ok r0 =>
      rw [hc] at h
      cases hrest : rowsOfContent n d pn xg (i + 1) rest with
      | error e => rw [hrest] at h; simp [Except.bind] at h
      | ok rs0 =>
        rw [hrest] at h
        simp only [Except.bind, Except.ok.injEq] at h
        subst h
        simp [ih hrest]

theorem rowsOfContent_getElem {n d : String} {pn : Nat} {xg : Option (List XgRow)} :
    ∀ {i : Nat} {content : List Detection} {rows : List ResultRow},
      rowsOfContent n d pn xg i content = .ok rows →
      ∀ (j : Nat) (r : ResultRow) (c : Detection),
        rows[j]? = some r → content[j]? = some c →
        rowOfDetection n d pn xg (i + j) c = .ok r := by
  intro i content
  induction content generalizing i with
  | nil => intro rows h j r c hr hc; simp at hc
  | cons c0 rest ih =>
    intro rows h j r c hr hc
    rw [rowsOfContent_cons] at h
    cases hc0 : rowOfDetection n d pn xg i c0 with
    | error e => rw [hc0] at h; simp [Except.bind] at h
    | ok r0 =>
      rw [hc0] at h
      cases hrest : rowsOfContent n d pn xg (i + 1) rest with
      | error e => rw [hrest] at h; simp [Except.bind] at h
      | ok rs0 =>
        rw [hrest] at h
        simp only [Except.bind, Except.ok.injEq] at h
        subst h
        cases j with
        | zero =>
          simp at hr hc
          subst hr; subst hc
          simpa using hc0
        | succ j =>
          simp at hr hc
          have := ih hrest j r c hr hc
          simpa [Nat.add_comm, Nat.add_assoc, Nat.add_left_comm] using this

theorem rowsOfContent_exists {n d : String} {pn : Nat} {xg : Option (List XgRow)} :
    ∀ {i : Nat} {content : List Detection},
      (∀ c ∈ content, c.cls ≠ []) →
      (∀ xs, xg = some xs → i + content.length ≤ xs.length) →
      ∃ rows, rowsOfContent n d pn xg i content = .ok rows := by
  intro i content
  induction content generalizing i with
  | nil => intro _ _; exact ⟨[], rfl⟩
  | cons c rest ih =>
    intro hcls hxg
    obtain ⟨r, hr⟩ := @rowOfDetection_exists n d pn xg i c (hcls c (by simp))
      (fun xs hxs => by have := hxg xs hxs; simp at this; omega)
    obtain ⟨rs, hrs⟩ := ih (i := i + 1) (fun c' hc' => hcls c' (by simp [hc']))
      (fun xs hxs => by have := hxg xs hxs; simp at this; omega)
    refine ⟨r :: rs, ?_⟩
    rw [rowsOfContent_cons, hr, hrs]
    rfl

theorem collectRows_ok_mem {objs : List PageObj} {rows : List ResultRow}
    (h : collectRows objs = .ok rows) :
    ∀ r ∈ rows, ∃ obj ∈ objs, ∃ j c,
      rowOfDetection obj.pdf_name obj.dataset_id obj.page_num
        obj.payload.xgboost_content j c = .ok r := by
  intro r hr
  rw [collectRows_eq] at h
  cases hm : mapE rowsOfObj objs with
  | error e => rw [hm] at h; simp [Except.bind] at h
  | ok rss =>
    rw [hm] at h
    simp only [Except.bind, Except.ok.injEq] at h
    subst h
    obtain ⟨l, hl, hrl⟩ := List.mem_flatten.mp hr
    obtain ⟨obj, hobj, hfobj⟩ := mapE_ok_mem hm l hl
    obtain ⟨j, c, hjc⟩ := rowsOfContent_ok_mem hfobj r hrl
    exact ⟨obj, hobj, j, c, hjc⟩

theorem addDerived_ok_mem {rows : List ResultRow} {finals : List FinalRow}
    (h : addDerived rows = .ok finals) :
    ∀ fr ∈ finals, fr.toResultRow ∈ rows ∧
      fr.classes.head? = some fr.detect_cls ∧
      fr.scores.head? = some fr.detect_score := by
  intro fr hfr
  unfold addDerived at h
  cases rows with
  | nil => simp at h
  | cons r0 rest =>
    obtain ⟨r, hr, hfrr⟩ := mapE_ok_mem h fr hfr
    cases hc : r.classes.head? with
    | none => rw [hc] at hfrr; simp at hfrr
    | some c =>
      rw [hc] at hfrr
      cases hs : r.scores.head? with
      | none => rw [hs] at hfrr; simp at hfrr
      | some s =>
        rw [hs] at hfrr
        simp only [Except.ok.injEq] at hfrr
        subst hfrr
        exact ⟨hr, hc, hs⟩

theorem addDerived_exists {rows : List ResultRow}
    (hne : rows ≠ [])
    (hcls : ∀ r ∈ rows, r.classes ≠ [] ∧ r.scores ≠ []) :
    ∃ finals, addDerived rows = .ok finals := by
  unfold addDerived
  cases rows with
  | nil => exact absurd rfl hne
  | cons r0 rest =>
    apply mapE_ok_of_forall
    intro r hr
    obtain ⟨h1, h2⟩ := hcls r hr
    cases hc : r.classes.head? with
    | none => rw [List.head?_eq_none_iff] at hc; exact absurd hc h1
    | some c =>
      cases hs : r.scores.head? with
      | none => rw [List.head?_eq_none_iff] at hs; exact absurd hs h2
      | some s =>
        exact ⟨{ toResultRow := r, detect_cls := c, detect_score := s }, rfl⟩

/-! ## Rasterization and run-level lemmas -/

theorem pageNumOf_error {f : String} {e : PyErr}
    (h : pageNumOf f = .error e) : e = .exception f := by
  unfold pageNumOf at h
  cases hl : f.data.getLast? with
  | none => simp only [hl, Except.error.injEq] at h; exact h.symm
  | some c =>
    simp only [hl] at h
    cases hc : charToDigit c with
    | none => simp only [hc, Except.error.injEq] at h; exact h.symm
    | some n => simp only [hc] at h; exact absurd h (by simp)

theorem pdf_to_images_m_parse_error {doc : Doc} {e : PyErr}
    (h : doc.parse = .error e) : pdf_to_images_m doc = .ok [] := by
  unfold pdf_to_images_m
  rw [h]

theorem pdf_to_images_m_ok_mem {doc : Doc} {l : List (String × Nat)}
    (h : pdf_to_images_m doc = .ok l) :
    ∀ p ∈ l, p.1 = doc.pdf_name ∧ doc.parse = .ok () := by
  intro p hp
  unfold pdf_to_images_m at h
  cases hparse : doc.parse with
  | error e =>
    simp only [hparse, Except.ok.injEq] at h
    subst h; simp at hp
  | ok u =>
    simp only [hparse] at h
    obtain ⟨f, _, hf⟩ := mapE_ok_mem h p hp
    cases hn : pageNumOf f with
    | error e => rw [hn] at hf; simp [Except.bind] at hf
    | ok n =>
      rw [hn] at hf
      simp only [Except.bind, Except.ok.injEq] at hf
      subst hf
      exact ⟨rfl, by cases u; simp [hparse]⟩

theorem pdf_to_images_m_error_shape {doc : Doc} {e : PyErr}
    (h : pdf_to_images_m doc = .error e) : ∃ f, e = .exception f := by
  unfold pdf_to_images_m at h
  cases hparse : doc.parse with
  | error e0 => simp only [hparse] at h; exact absurd h (by simp)
  | ok u =>
    simp only [hparse] at h
    obtain ⟨f, _, hf⟩ := mapE_error_mem h
    cases hn : pageNumOf f with
    | error e0 =>
      rw [hn] at hf
      simp only [Except.bind, Except.error.injEq] at hf
      subst hf
      exact ⟨f, pageNumOf_error hn⟩
    | ok n => rw [hn] at hf; simp [Except.bind] at hf

theorem runItems_error_shape {docs : List Doc} {e : PyErr}
    (h : runItems docs = .error e) : ∃ f, e = .exception f := by
  unfold runItems at h
  cases hm : mapE pdf_to_images_m docs with
  | error e0 =>
    rw [hm] at h
    simp only [Except.bind, Except.error.injEq] at h
    subst h
    obtain ⟨d, _, hd⟩ := mapE_error_mem hm
    exact pdf_to_images_m_error_shape hd
  | ok pages => rw [hm] at h; simp [Except.bind] at h

theorem runItems_ok_mem {docs : List Doc} {items : List (String × Nat)}
    (h : runItems docs = .ok items) :
    ∀ it ∈ items, ∃ d ∈ docs, d.parse = .ok () ∧ it.1 = d.pdf_name := by
  intro it hit
  unfold runItems at h
  cases hm : mapE pdf_to_images_m docs with
  | error e => rw [hm] at h; simp [Except.bind] at h
  | ok pages =>
    rw [hm] at h
    simp only [Except.bind, Except.ok.injEq] at h
    subst h
    obtain ⟨l, hl, hitl⟩ := List.mem_flatten.mp hit
    obtain ⟨d, hd, hfd⟩ := mapE_ok_mem hm l hl
    obtain ⟨h1, h2⟩ := pdf_to_images_m_ok_mem hfd it hitl
    exact ⟨d, hd, h2, h1⟩

theorem rowOfDetection_error_shape {n d : String} {pn : Nat}
    {xg : Option (List XgRow)} {i : Nat} {c : Detection} {e : PyErr}
    (h : rowOfDetection n d pn xg i c = .error e) :
    (∃ m, e = .valueError m) ∨ (∃ m, e = .indexError m) := by
  obtain ⟨bb, cls, text⟩ := c
  cases cls with
  | nil =>
    simp only [rowOfDetection, Except.error.injEq] at h
    exact Or.inl ⟨_, h.symm⟩
  | cons p ps =>
    cases xg with
    | none => exact absurd h (by simp [rowOfDetection])
    | some xs =>
      simp only [rowOfDetection] at h
      cases hx : xs[i]? with
      | none =>
        rw [hx] at h
        simp only [Except.error.injEq] at h
        exact Or.inr ⟨_, h.symm⟩
      | some x => rw [hx] at h; exact absurd h (by simp)

theorem rowsOfContent_error_shape {n d : String} {pn : Nat}
    {xg : Option (List XgRow)} :
    ∀ {i : Nat} {content : List Detection} {e : PyErr},
      rowsOfContent n d pn xg i content = .error e →
      (∃ m, e = .valueError m) ∨ (∃ m, e = .indexError m) := by
  intro i content
  induction content generalizing i with
  | nil => intro e h; rw [rowsOfContent_nil] at h; simp at h
  | cons c rest ih =>
    intro e h
    rw [rowsOfContent_cons] at h
    cases hc : rowOfDetection n d pn xg i c with
    | error e0 =>
      rw [hc] at h
      simp only [Except.bind, Except.error.injEq] at h
      subst h
      exact rowOfDetection_error_shape hc
    | ok r0 =>
      rw [hc] at h
      cases hrest : rowsOfContent n d pn xg (i + 1) rest with
      | error e0 =>
        rw [hrest] at h
        simp only [Except.bind, Except.error.injEq] at h
        subst h
        exact ih hrest
      | ok rs0 => rw [hrest] at h; simp [Except.bind] at h

theorem collectAndDerive_error_shape {env : StageEnv} {cfg : IngestConfig}
    {v sk : Bool} {ds : String} {items : List (String × Nat)} {e : PyErr}
    (h : collectAndDerive env cfg v sk ds items = .error e) :
    (∃ m, e = .valueError m) ∨ (∃ m, e = .indexError m) ∨
      (∃ m, e = .keyError m) := by
  unfold collectAndDerive at h
  cases hc : collectRows (items.map (terminalObj env (stageChain cfg v sk) ds)) with
  | error e0 =>
    rw [hc] at h
    simp only [Except.bind, Except.error.injEq] at h
    subst h
    rw [collectRows_eq] at hc
    cases hm : mapE rowsOfObj (items.map (terminalObj env (stageChain cfg v sk) ds)) with
    | error e1 =>
      rw [hm] at hc
      simp only [Except.bind, Except.error.injEq] at hc
      subst hc
      obtain ⟨obj, _, hobj⟩ := mapE_error_mem hm
      rcases rowsOfContent_error_shape hobj with h1 | h2
      · exact Or.inl h1
      · exact Or.inr (Or.inl h2)
    | ok rss => rw [hm] at hc; simp [Except.bind] at hc
  | ok rows =>
    rw [hc] at h
    simp only [Except.bind] at h
    unfold addDerived at h
    cases rows with
    | nil =>
      simp only [Except.error.injEq] at h
      exact Or.inr (Or.inr ⟨_, h.symm⟩)
    | cons r0 rest =>
      obtain ⟨r, _, hr⟩ := mapE_error_mem h
      cases hcl : r.classes.head? with
      | none =>
        rw [hcl] at hr
        simp only [Except.error.injEq] at hr
        exact Or.inr (Or.inl ⟨_, hr.symm⟩)
      | some c =>
        rw [hcl] at hr
        cases hs : r.scores.head? with
        | none =>
          rw [hs] at hr
          simp only [Except.error.injEq] at hr
          exact Or.inr (Or.inl ⟨_, hr.symm⟩)
        | some s => rw [hs] at hr; exact absurd hr (by simp)

theorem terminalObj_pdf_name (env : StageEnv) (chain : List Stage)
    (ds : String) (it : String × Nat) :
    (terminalObj env chain ds it).pdf_name = it.1 := rfl

theorem terminalObj_dataset_id (env : StageEnv) (chain : List Stage)
    (ds : String) (it : String × Nat) :
    (terminalObj env chain ds it).dataset_id = ds := rfl

theorem terminalObj_page_num (env : StageEnv) (chain : List Stage)
    (ds : String) (it : String × Nat) :
    (terminalObj env chain ds it).page_num = it.2 := rfl

theorem ingestLocalTrace_raster_error {env : StageEnv} {cfg : IngestConfig}
    {v sk : Bool} {ds : String} {docs : List Doc} {aggs reg : List String}
    {e : PyErr} (h : runItems docs = .error e) :
    ingestLocalTrace env cfg v sk ds docs aggs reg = (rasterEvents docs, .error e) := by
  unfold ingestLocalTrace
  rw [h]

theorem ingestLocalTrace_collect_error {env : StageEnv} {cfg : IngestConfig}
    {v sk : Bool} {ds : String} {docs : List Doc} {aggs reg : List String}
    {items : List (String × Nat)} {e : PyErr}
    (hitems : runItems docs = .ok items)
    (hc : collectAndDerive env cfg v sk ds items = .error e) :
    ingestLocalTrace env cfg v sk ds docs aggs reg =
      (fullWorkEvents cfg v sk docs, .error e) := by
  unfold ingestLocalTrace
  simp only [hitems, hc]

theorem ingestLocalTrace_agg_error {env : StageEnv} {cfg : IngestConfig}
    {v sk : Bool} {ds : String} {docs : List Doc} {aggs reg : List String}
    {items : List (String × Nat)} {finals : List FinalRow}
    {aggEvents : List Event} {bad : String}
    (hitems : runItems docs = .ok items)
    (hc : collectAndDerive env cfg v sk ds items = .ok finals)
    (hagg : runAggs reg aggs = (aggEvents, some bad)) :
    ingestLocalTrace env cfg v sk ds docs aggs reg =
      (fullWorkEvents cfg v sk docs ++ aggEvents,
        .error (.configurationError bad)) := by
  unfold ingestLocalTrace
  simp only [hitems, hc, hagg]

theorem ingestLocalTrace_ok {env : StageEnv} {cfg : IngestConfig}
    {v sk : Bool} {ds : String} {docs : List Doc} {aggs reg : List String}
    {items : List (String × Nat)} {finals : List FinalRow}
    {aggEvents : List Event}
    (hitems : runItems docs = .ok items)
    (hc : collectAndDerive env cfg v sk ds items = .ok finals)
    (hagg : runAggs reg aggs = (aggEvents, none)) :
    ingestLocalTrace env cfg v sk ds docs aggs reg =
      (fullWorkEvents cfg v sk docs ++ aggEvents ++ [Event.writeParquet],
        .ok finals) := by
  unfold ingestLocalTrace
  simp only [hitems, hc, hagg]

theorem collectAndDerive_ok_mem {env : StageEnv} {cfg : IngestConfig}
    {v sk : Bool} {ds : String} {items : List (String × Nat)}
    {finals : List FinalRow}
    (h : collectAndDerive env cfg v sk ds items = .ok finals) :
    ∀ fr ∈ finals, ∃ it ∈ items,
      fr.pdf_name = it.1 ∧ fr.dataset_id = ds ∧ fr.page_num = it.2 := by
  intro fr hfr
  unfold collectAndDerive at h
  cases hc : collectRows (items.map (terminalObj env (stageChain cfg v sk) ds)) with
  | error e => rw [hc] at h; simp [Except.bind] at h
  | ok rows =>
    rw [hc] at h
    simp only [Except.bind] at h
    obtain ⟨hmem, _, _⟩ := addDerived_ok_mem h fr hfr
    obtain ⟨obj, hobj, j, c, hjc⟩ := collectRows_ok_mem hc fr.toResultRow hmem
    obtain ⟨it, hit, hobjit⟩ := List.mem_map.mp hobj
    obtain ⟨h1, h2, h3, _⟩ := rowOfDetection_ok_spec hjc
    subst hobjit
    exact ⟨it, hit, h1, h2, h3⟩

theorem collectAndDerive_ok_of_rows {env : StageEnv} {cfg : IngestConfig}
    {v sk : Bool} {ds : String} {items : List (String × Nat)}
    {r0 : ResultRow} {rest : List ResultRow}
    (hcoll : collectRows (items.map (terminalObj env (stageChain cfg v sk) ds))
      = .ok (r0 :: rest)) :
    ∃ finals, collectAndDerive env cfg v sk ds items = .ok finals := by
  have hcls : ∀ r ∈ r0 :: rest, r.classes ≠ [] ∧ r.scores ≠ [] := by
    intro r hr
    obtain ⟨obj, _, j, c, hjc⟩ := collectRows_ok_mem hcoll r hr
    obtain ⟨_, _, _, _, _, h6, h7, h8, _⟩ := rowOfDetection_ok_spec hjc
    constructor
    · rw [h6]; simp [h8]
    · rw [h7]; simp [h8]
  obtain ⟨finals, hfin⟩ := addDerived_exists (by simp) hcls
  refine ⟨finals, ?_⟩
  unfold collectAndDerive
  rw [hcoll]
  exact hfin

/-! ## Glob and page-number lemmas -/

theorem decDigits_of_lt {n : Nat} (h : n < 10) : decDigits n = [n] := by
  rw [decDigits]
  simp [h]

theorem decDigits_of_ge {n : Nat} (h : ¬ n < 10) :
    decDigits n = decDigits (n / 10) ++ [n % 10] := by
  rw [decDigits]
  simp [h]

theorem decDigits_ne_nil (n : Nat) : decDigits n ≠ [] := by
  by_cases h : n < 10
  · rw [decDigits_of_lt h]; simp
  · rw [decDigits_of_ge h]; simp

theorem decDigits_length_one_iff (n : Nat) :
    (decDigits n).length = 1 ↔ n < 10 := by
  constructor
  · intro h
    by_contra hge
    rw [decDigits_of_ge hge] at h
    have := decDigits_ne_nil (n / 10)
    simp at h
    cases hd : decDigits (n / 10) with
    | nil => exact this hd
    | cons a l => rw [hd] at h; simp at h
  · intro h
    rw [decDigits_of_lt h]
    rfl

theorem pageFileName_data (name : String) (p : Nat) :
    (pageFileName name p).data =
      name.data ++ '_' :: (decDigits p).map Nat.digitChar := by
  unfold pageFileName
  rw [String.data_append, String.data_append]
  simp

theorem globMatch_pageFileName (name : String) (p : Nat) :
    globMatch name (pageFileName name p) = decide (p < 10) := by
  unfold globMatch
  rw [pageFileName_data]
  by_cases h : p < 10
  · rw [decDigits_of_lt h]
    simp only [List.map_cons, List.map_nil]
    have hlen : (name.data ++ '_' :: [Nat.digitChar p]).length
        = name.data.length + 2 := by simp
    have htake : (name.data ++ '_' :: [Nat.digitChar p]).take (name.data.length + 1)
        = name.data ++ ['_'] := by
      have hsplit : name.data ++ '_' :: [Nat.digitChar p]
          = (name.data ++ ['_']) ++ [Nat.digitChar p] := by simp
      rw [hsplit]
      exact List.take_left' (by simp)
    rw [hlen, htake]
    simp [h]
  · have hlen2 : 2 ≤ ((decDigits p).map Nat.digitChar).length := by
      rw [List.length_map]
      rcases hd : decDigits (p / 10) with _ | ⟨a, l⟩
      · exact absurd hd (decDigits_ne_nil _)
      · rw [decDigits_of_ge h, hd]; simp
    have hne : (name.data ++ '_' :: (decDigits p).map Nat.digitChar).length
        ≠ name.data.length + 2 := by
      simp only [List.length_append, List.length_cons]
      omega
    have hd0 : decide (p < 10) = false := by simp [h]
    rw [hd0, Bool.and_eq_false_iff]
    left
    simpa using hne

theorem charToDigit_digitChar {p : Nat} (h : p < 10) :
    charToDigit (Nat.digitChar p) = some p := by
  interval_cases p <;> rfl

theorem pageNumOf_pageFileName {name : String} {p : Nat} (h : p < 10) :
    pageNumOf (pageFileName name p) = .ok p := by
  unfold pageNumOf
  rw [pageFileName_data]
  rw [decDigits_of_lt h]
  have hlast : (name.data ++ '_' :: [p].map Nat.digitChar).getLast? =
      some (Nat.digitChar p) := by
    rw [List.getLast?_append]
    rfl
  simp only [hlast, charToDigit_digitChar h]

/-! ## Concrete data for witnesses -/

/-- A concrete stage environment for witnesses and counterexamples: the
proposal stage produces one detection carrying two `(score, class)` pairs, the
xgboost postprocess stage attaches a matching `xgboost_content` row, and every
other stage leaves the payload unchanged. -/
def sampleEnv : StageEnv := fun s p =>
  match s with
  | .propose _ =>
    { content := [⟨[0, 0, 1, 1], [(9, "Body Text"), (1, "Figure")], "hello"⟩],
      xgboost_content := none }
  | .xgboostPostprocess =>
    { p with xgboost_content := some [⟨0, "Section Header", 0, 4⟩] }
  | _ => p

/-- The row the collector produces from `sampleEnv`'s detection on page
`pn` of `name` when no postprocess stage ran. -/
def sampleRow (name : String) (pn : Nat) : ResultRow :=
  { pdf_name := name, dataset_id := "ds", page_num := pn,
    bounding_box := [0, 0, 1, 1], classes := ["Body Text", "Figure"],
    scores := [9, 1], content := "hello",
    postprocess_cls := none, postprocess_score := none }

/-- A concrete 3-document batch whose second document is corrupt: `parse_pdf`
raises on it, while documents 1 and 3 parse and rasterize to one page each. -/
def sampleDocs : List Doc :=
  [⟨"doc1.pdf", .ok (), ["doc1.pdf_1"], 0⟩,
   ⟨"doc2.pdf", .error (.otherError "corrupt"), ["doc2.pdf_1"], 0⟩,
   ⟨"doc3.pdf", .ok (), ["doc3.pdf_1"], 0⟩]

/-! ## Claim theorems -/

/-- C1: a document whose parse raises is excluded (contributing zero rows)
while every other document is still processed; a run whose surviving items
collect successfully ends in `.ok` — no exception escapes — and every row of
the output belongs to a document whose parse succeeded. -/
theorem collector_excludes_failed_documents
    (env : StageEnv) (cfg : IngestConfig) (v sk : Bool) (ds : String)
    (docs : List Doc) (items : List (String × Nat))
    (r0 : ResultRow) (rest : List ResultRow)
    (hitems : runItems docs = .ok items)
    (hcoll : collectRows (items.map (terminalObj env (stageChain cfg v sk) ds))
      = .ok (r0 :: rest)) :
    ∃ finals,
      ingestLocalTrace env cfg v sk ds docs [] [] =
        (fullWorkEvents cfg v sk docs ++ [Event.writeParquet], .ok finals) ∧
      finals ≠ [] ∧
      ∀ fr ∈ finals, ∃ d ∈ docs, d.parse = .ok () ∧ fr.pdf_name = d.pdf_name := by
  obtain ⟨finals, hfin⟩ := collectAndDerive_ok_of_rows hcoll
  have hrun := @ingestLocalTrace_ok env cfg v sk ds docs [] [] items finals []
    hitems hfin rfl
  refine ⟨finals, by simpa using hrun, ?_, ?_⟩
  · have hder : addDerived (r0 :: rest) = .ok finals := by
      unfold collectAndDerive at hfin
      rw [hcoll] at hfin
      simpa only [Except.bind] using hfin
    unfold addDerived at hder
    have := mapE_ok_length hder
    intro hnil
    rw [hnil] at this
    simp at this
  · intro fr hfr
    obtain ⟨it, hit, h1, _, _⟩ := collectAndDerive_ok_mem hfin fr hfr
    obtain ⟨d, hd, hdok, hdname⟩ := runItems_ok_mem hitems it hit
    exact ⟨d, hd, hdok, by rw [h1, hdname]⟩

/-- Witness for C1: on the 3-document batch with document 2 corrupt, the run
returns `.ok` and every output row belongs to document 1 or document 3. -/
theorem collector_excludes_failed_documents_witness :
    (runItems sampleDocs = .ok [("doc1.pdf", 1), ("doc3.pdf", 1)]) ∧
    (collectRows ([("doc1.pdf", 1), ("doc3.pdf", 1)].map
        (terminalObj sampleEnv (stageChain ⟨false, false, false⟩ false true) "ds"))
      = .ok (sampleRow "doc1.pdf" 1 :: [sampleRow "doc3.pdf" 1])) ∧
    (∃ finals,
      ingestLocalTrace sampleEnv ⟨false, false, false⟩ false true "ds"
          sampleDocs [] [] =
        (fullWorkEvents ⟨false, false, false⟩ false true sampleDocs
            ++ [Event.writeParquet], .ok finals) ∧
      finals ≠ [] ∧
      ∀ fr ∈ finals, ∃ d ∈ sampleDocs, d.parse = .ok () ∧
        fr.pdf_name = d.pdf_name) :=
  have h1 : runItems sampleDocs = .ok [("doc1.pdf", 1), ("doc3.pdf", 1)] := rfl
  have h2 : collectRows ([("doc1.pdf", 1), ("doc3.pdf", 1)].map
      (terminalObj sampleEnv (stageChain ⟨false, false, false⟩ false true) "ds"))
      = .ok (sampleRow "doc1.pdf" 1 :: [sampleRow "doc3.pdf" 1]) := rfl
  ⟨h1, h2,
    collector_excludes_failed_documents sampleEnv ⟨false, false, false⟩ false true
      "ds" sampleDocs [("doc1.pdf", 1), ("doc3.pdf", 1)]
      (sampleRow "doc1.pdf" 1) [sampleRow "doc3.pdf" 1] h1 h2⟩

/-- C2: every row produced by the collector has `classes` and `scores` lists
of equal length, and after the derived columns are added,
`detect_cls = classes[0]` and `detect_score = scores[0]`. -/
theorem result_rows_classes_scores_parallel
    (objs : List PageObj) (rows : List ResultRow) (finals : List FinalRow)
    (hc : collectRows objs = .ok rows) (hd : addDerived rows = .ok finals) :
    (∀ r ∈ rows, r.classes.length = r.scores.length) ∧
    (∀ fr ∈ finals, fr.classes.length = fr.scores.length ∧
      fr.classes.head? = some fr.detect_cls ∧
      fr.scores.head? = some fr.detect_score) := by
  have hlen : ∀ r ∈ rows, r.classes.length = r.scores.length := by
    intro r hr
    obtain ⟨obj, _, j, c, hjc⟩ := collectRows_ok_mem hc r hr
    obtain ⟨_, _, _, _, _, h6, h7, _⟩ := rowOfDetection_ok_spec hjc
    rw [h6, h7]
    simp
  refine ⟨hlen, fun fr hfr => ?_⟩
  obtain ⟨hmem, hh1, hh2⟩ := addDerived_ok_mem hd fr hfr
  exact ⟨hlen fr.toResultRow hmem, hh1, hh2⟩

/-- A one-page artifact with a two-element class/score list, for the C2
witness. -/
def pairObj : PageObj :=
  { pdf_name := "a.pdf", dataset_id := "ds", page_num := 1,
    payload := { content := [⟨[0, 1], [(9, "Body Text"), (1, "Figure")], "t"⟩],
                 xgboost_content := none } }

/-- The row the collector produces from `pairObj`. -/
def pairRow : ResultRow :=
  { pdf_name := "a.pdf", dataset_id := "ds", page_num := 1,
    bounding_box := [0, 1], classes := ["Body Text", "Figure"],
    scores := [9, 1], content := "t",
    postprocess_cls := none, postprocess_score := none }

/-- `pairRow` with the derived columns added. -/
def pairFinal : FinalRow :=
  { toResultRow := pairRow, detect_cls := "Body Text", detect_score := 9 }

/-- Witness for C2 at a one-page artifact with a two-element class/score
list. -/
theorem result_rows_classes_scores_parallel_witness :
    (collectRows [pairObj] = .ok [pairRow]) ∧
    (addDerived [pairRow] = .ok [pairFinal]) ∧
    ((∀ r ∈ [pairRow], r.classes.length = r.scores.length) ∧
      (∀ fr ∈ [pairFinal], fr.classes.length = fr.scores.length ∧
        fr.classes.head? = some fr.detect_cls ∧
        fr.scores.head? = some fr.detect_score)) :=
  have h1 : collectRows [pairObj] = .ok [pairRow] := rfl
  have h2 : addDerived [pairRow] = .ok [pairFinal] := rfl
  ⟨h1, h2, result_rows_classes_scores_parallel _ _ _ h1 h2⟩

/-- C4: the collector turns each detection triple of a surviving work item
into exactly one row — copying `pdf_name`, `dataset_id` and `page_num`, and
taking `postprocess_cls`/`postprocess_score` from `xgboost_content` at the
same index when that stage ran, both `None` otherwise; an item with an empty
detections list contributes zero rows and raises no error. -/
theorem collector_explodes_detections
    (obj : PageObj)
    (hcls : ∀ c ∈ obj.payload.content, c.cls ≠ [])
    (hxg : ∀ xs, obj.payload.xgboost_content = some xs →
      obj.payload.content.length ≤ xs.length) :
    ∃ rows, rowsOfObj obj = .ok rows ∧
      rows.length = obj.payload.content.length ∧
      (obj.payload.content = [] → rows = []) ∧
      ∀ (j : Nat) (r : ResultRow) (c : Detection),
        rows[j]? = some r → obj.payload.content[j]? = some c →
        r.pdf_name = obj.pdf_name ∧ r.dataset_id = obj.dataset_id ∧
        r.page_num = obj.page_num ∧ r.bounding_box = c.bb ∧
        r.content = c.text ∧
        r.classes = c.cls.map Prod.snd ∧ r.scores = c.cls.map Prod.fst ∧
        (obj.payload.xgboost_content = none →
          r.postprocess_cls = none ∧ r.postprocess_score = none) ∧
        (∀ xs, obj.payload.xgboost_content = some xs →
          ∃ x, xs[j]? = some x ∧ r.postprocess_cls = some x.cls ∧
            r.postprocess_score = some x.score) := by
  obtain ⟨rows, hrows⟩ := @rowsOfContent_exists obj.pdf_name obj.dataset_id
    obj.page_num obj.payload.xgboost_content 0 obj.payload.content
    hcls (fun xs hxs => by simpa using hxg xs hxs)
  have hlen := rowsOfContent_length hrows
  refine ⟨rows, hrows, hlen, ?_, ?_⟩
  · intro hnil
    rw [hnil] at hlen
    simpa using List.length_eq_zero.mp (by simpa using hlen)
  · intro j r c hr hc
    have hget := rowsOfContent_getElem hrows j r c hr hc
    obtain ⟨s1, s2, s3, s4, s5, s6, s7, _, s9, s10⟩ :=
      rowOfDetection_ok_spec (by simpa using hget)
    exact ⟨s1, s2, s3, s4, s5, s6, s7, s9, s10⟩

/-- A two-detection artifact whose xgboost postprocess stage ran, for the C4
witness. -/
def xgObj : PageObj :=
  { pdf_name := "b.pdf", dataset_id := "ds", page_num := 2,
    payload :=
      { content := [⟨[0], [(9, "Body Text")], "t"⟩, ⟨[1], [(5, "Table")], "u"⟩],
        xgboost_content := some [⟨0, "BT", 0, 7⟩, ⟨0, "TBL", 0, 6⟩] } }

/-- Witness for C4 at `xgObj`. -/
theorem collector_explodes_detections_witness :
    (∀ c ∈ xgObj.payload.content, c.cls ≠ []) ∧
    (∀ xs, xgObj.payload.xgboost_content = some xs →
      xgObj.payload.content.length ≤ xs.length) ∧
    (∃ rows, rowsOfObj xgObj = .ok rows ∧
      rows.length = xgObj.payload.content.length ∧
      (xgObj.payload.content = [] → rows = []) ∧
      ∀ (j : Nat) (r : ResultRow) (c : Detection),
        rows[j]? = some r → xgObj.payload.content[j]? = some c →
        r.pdf_name = xgObj.pdf_name ∧ r.dataset_id = xgObj.dataset_id ∧
        r.page_num = xgObj.page_num ∧ r.bounding_box = c.bb ∧
        r.content = c.text ∧
        r.classes = c.cls.map Prod.snd ∧ r.scores = c.cls.map Prod.fst ∧
        (xgObj.payload.xgboost_content = none →
          r.postprocess_cls = none ∧ r.postprocess_score = none) ∧
        (∀ xs, xgObj.payload.xgboost_content = some xs →
          ∃ x, xs[j]? = some x ∧ r.postprocess_cls = some x.cls ∧
            r.postprocess_score = some x.score)) :=
  have h1 : ∀ c ∈ xgObj.payload.content, c.cls ≠ [] := by decide
  have h2 : ∀ xs, xgObj.payload.xgboost_content = some xs →
      xgObj.payload.content.length ≤ xs.length := fun xs hxs => by
    cases hxs; decide
  ⟨h1, h2, collector_explodes_detections xgObj h1 h2⟩

/-- C5: when a page's document carries geometry metadata, every box
coordinate belonging to that page is rescaled linearly per axis by
rendered/original extent — `x` coordinates by `w / limit.c2`, `y` coordinates
by `h / limit.c3` — where the original extents come from the parsed pdf limit
(the declared page box), and the result is independent of the decoded
raster's pixel size. -/
theorem geometry_rescaled_from_declared_page_box
    (rows : List MetaRow) (limit : PdfLimit)
    (dw dh dw2 dh2 w h : ℚ) (pn : Nat) :
    processPageGeometry (some rows) limit dw dh w h pn =
      (limit.c2, limit.c3,
        some (rows.map (fun r =>
          if r.page = (pn : Int) - 1 then
            { r with x1 := r.x1 * w / limit.c2, x2 := r.x2 * w / limit.c2,
                     y1 := r.y1 * h / limit.c3, y2 := r.y2 * h / limit.c3 }
          else r))) ∧
    processPageGeometry (some rows) limit dw dh w h pn =
      processPageGeometry (some rows) limit dw2 dh2 w h pn := by
  constructor
  · simp [processPageGeometry, mul_div_assoc]
  · rfl

/-- C6: the stage chain is fixed: the proposal stage always comes first;
exactly under semantic detection the chain continues with detection, regroup
and text-pooling (carrying the skip-OCR flag) in that order; the xgboost
postprocess stage is present exactly when detection ran and that flag is set,
and the rules postprocess stage exactly when the xgboost stage ran and its
flag is set. -/
theorem stage_chain_fixed_order :
    ∀ (sem xgb rul v sk : Bool),
      (stageChain ⟨sem, xgb, rul⟩ v sk).head? = some (Stage.propose v) ∧
      ((stageChain ⟨sem, xgb, rul⟩ v sk).take 4 =
        if sem then [Stage.propose v, Stage.detect, Stage.regroup,
                     Stage.poolText sk]
        else [Stage.propose v]) ∧
      (Stage.detect ∈ stageChain ⟨sem, xgb, rul⟩ v sk ↔ sem = true) ∧
      (Stage.xgboostPostprocess ∈ stageChain ⟨sem, xgb, rul⟩ v sk ↔
        (sem && xgb) = true) ∧
      (Stage.rulesPostprocess ∈ stageChain ⟨sem, xgb, rul⟩ v sk ↔
        (sem && xgb && rul) = true) := by
  decide

/-- C9: the glob `{pdf_name}_?` matches only file names with a single
character after the underscore, so of a document rendering pages
`1..numPages` exactly the pages numbered at most 9 are collected into work
items; pages 10 and above are silently excluded. -/
theorem glob_collects_only_single_digit_pages
    (name : String) (numPages ec : Nat) :
    pdf_to_images_m ⟨name, .ok (), gsPageFiles name numPages, ec⟩ =
      .ok (((List.range' 1 numPages).filter (fun p => p ≤ 9)).map
        (fun p => (name, p))) := by
  have h0 : pdf_to_images_m ⟨name, .ok (), gsPageFiles name numPages, ec⟩ =
      mapE (fun f => Except.bind (pageNumOf f) (fun n => Except.ok (name, n)))
        ((gsPageFiles name numPages).filter (globMatch name)) := rfl
  rw [h0]
  unfold gsPageFiles
  rw [List.filter_map]
  have hpred : ∀ p ∈ List.range' 1 numPages,
      (globMatch name ∘ pageFileName name) p = decide (p ≤ 9) := by
    intro p _
    have := globMatch_pageFileName name p
    simp only [Function.comp] at this ⊢
    rw [this]
    exact decide_eq_decide.mpr Nat.lt_succ_iff
  rw [List.filter_congr hpred]
  rw [mapE_map]
  apply mapE_congr_ok
  intro p hp
  have hle : p ≤ 9 := by
    have := List.mem_filter.mp hp
    exact of_decide_eq_true this.2
  rw [pageNumOf_pageFileName (by omega)]
  rfl

/-- C10: calling `ingest` on an object constructed without a tmp directory
raises `NotImplementedError` before any document is touched (no events); with
a tmp directory the local ingestion path runs. -/
theorem ingest_dispatch_on_tmp_dir
    (env : StageEnv) (cfg : IngestConfig) (v sk : Bool) (ds : String)
    (docs : List Doc) (aggs reg : List String) (t : String) :
    ingestDispatch none env cfg v sk ds docs aggs reg =
      ([], .error (.notImplementedError
        "Distributed setup currently not implemented via Ingest class. Set a tmp directory.")) ∧
    ingestDispatch (some t) env cfg v sk ds docs aggs reg =
      ingestLocalTrace env cfg v sk ds docs aggs reg :=
  ⟨rfl, rfl⟩

/-- A single healthy one-page document, for counterexamples and witnesses. -/
def oneDoc : List Doc := [⟨"doc1.pdf", .ok (), ["doc1.pdf_1"], 0⟩]

/-- Counterexample to C3: with `use_rules_postprocess` enabled and
`use_xgboost_postprocess` disabled, the run raises no error at all — it
returns `.ok` after executing the stages — so no `ConfigurationError` is
raised before any stage executes. -/
theorem rules_without_classifier_runs_without_error :
    ((ingestLocalTrace sampleEnv ⟨true, false, true⟩ false true "ds"
        oneDoc [] []).2).isOk = true ∧
    Event.stageRun (Stage.propose false) ∈
      (ingestLocalTrace sampleEnv ⟨true, false, true⟩ false true "ds"
        oneDoc [] []).1 :=
  ⟨rfl, by decide⟩

/-- C3 (amended): enabling the rules-postprocess flag without the xgboost
(classifier) postprocess flag is silently ignored — the rules stage is not in
the chain and the whole run is identical to the run with the flag off; no
error is raised on account of the flag combination. -/
theorem rules_flag_silently_ignored
    (env : StageEnv) (sem v sk : Bool) (ds : String) (docs : List Doc)
    (aggs reg : List String) :
    stageChain ⟨sem, false, true⟩ v sk = stageChain ⟨sem, false, false⟩ v sk ∧
    Stage.rulesPostprocess ∉ stageChain ⟨sem, false, true⟩ v sk ∧
    ingestLocalTrace env ⟨sem, false, true⟩ v sk ds docs aggs reg =
      ingestLocalTrace env ⟨sem, false, false⟩ v sk ds docs aggs reg := by
  have hchain : stageChain ⟨sem, false, true⟩ v sk
      = stageChain ⟨sem, false, false⟩ v sk := by
    cases sem <;> rfl
  refine ⟨hchain, ?_, ?_⟩
  · cases sem <;> simp [stageChain]
  · have hcad : ∀ items, collectAndDerive env ⟨sem, false, true⟩ v sk ds items
        = collectAndDerive env ⟨sem, false, false⟩ v sk ds items := by
      intro items
      unfold collectAndDerive
      rw [hchain]
    have hfwe : fullWorkEvents ⟨sem, false, true⟩ v sk docs
        = fullWorkEvents ⟨sem, false, false⟩ v sk docs := by
      unfold fullWorkEvents
      rw [hchain]
    unfold ingestLocalTrace
    simp only [hcad, hfwe]

/-- Counterexample to C7: a run requesting the unregistered aggregation
`"bogus"` does fail with a configuration error, but only after the document
was rasterized, the stages ran and the rows were collected — not at startup
before any work. -/
theorem unknown_aggregation_fails_after_pipeline :
    ((ingestLocalTrace sampleEnv ⟨false, false, false⟩ false true "ds"
        oneDoc ["bogus"] ["pages"]).2 =
      .error (.configurationError "bogus")) ∧
    Event.rasterize "doc1.pdf" ∈
      (ingestLocalTrace sampleEnv ⟨false, false, false⟩ false true "ds"
        oneDoc ["bogus"] ["pages"]).1 ∧
    Event.stageRun (Stage.propose false) ∈
      (ingestLocalTrace sampleEnv ⟨false, false, false⟩ false true "ds"
        oneDoc ["bogus"] ["pages"]).1 ∧
    Event.collect ∈
      (ingestLocalTrace sampleEnv ⟨false, false, false⟩ false true "ds"
        oneDoc ["bogus"] ["pages"]).1 :=
  ⟨rfl, by decide, by decide, by decide⟩

/-- C7 (amended): a run that fails with a configuration error (the only
source of which is the aggregation loop, the spec-modelled
`aggregate_router`) has already rasterized every document, executed every
configured stage and collected the rows: the failure happens mid-run, after
the pipeline, not at startup. -/
theorem aggregation_failure_is_mid_run
    (env : StageEnv) (cfg : IngestConfig) (v sk : Bool) (ds : String)
    (docs : List Doc) (aggs reg : List String) (a : String)
    (h : (ingestLocalTrace env cfg v sk ds docs aggs reg).2 =
      .error (.configurationError a)) :
    (∀ d ∈ docs, Event.rasterize d.pdf_name ∈
      (ingestLocalTrace env cfg v sk ds docs aggs reg).1) ∧
    (∀ s ∈ stageChain cfg v sk, Event.stageRun s ∈
      (ingestLocalTrace env cfg v sk ds docs aggs reg).1) ∧
    Event.collect ∈ (ingestLocalTrace env cfg v sk ds docs aggs reg).1 := by
  cases hri : runItems docs with
  | error e =>
    rw [ingestLocalTrace_raster_error hri] at h
    obtain ⟨f, hf⟩ := runItems_error_shape hri
    subst hf
    simp at h
  | ok items =>
    cases hcd : collectAndDerive env cfg v sk ds items with
    | error e =>
      rw [ingestLocalTrace_collect_error hri hcd] at h
      rcases collectAndDerive_error_shape hcd with ⟨m, hm⟩ | ⟨m, hm⟩ | ⟨m, hm⟩ <;>
        (subst hm; simp at h)
    | ok finals =>
      rcases hagg : runAggs reg aggs with ⟨aE, obad⟩
      cases obad with
      | none =>
        rw [ingestLocalTrace_ok hri hcd hagg] at h
        simp at h
      | some bad =>
        rw [ingestLocalTrace_agg_error hri hcd hagg]
        refine ⟨?_, ?_, ?_⟩
        · intro d hd
          simp only [fullWorkEvents, rasterEvents, List.append_assoc,
            List.mem_append, List.mem_map]
          exact Or.inl ⟨d, hd, rfl⟩
        · intro st hst
          simp only [fullWorkEvents, rasterEvents, List.append_assoc,
            List.mem_append, List.mem_map]
          exact Or.inr (Or.inl ⟨st, hst, rfl⟩)
        · simp [fullWorkEvents]

/-- Witness for C7 (amended) at a concrete run with the unregistered
aggregation name `"bogus"`. -/
theorem aggregation_failure_is_mid_run_witness :
    ((ingestLocalTrace sampleEnv ⟨false, false, false⟩ false true "ds"
        oneDoc ["bogus"] ["pages"]).2 =
      .error (.configurationError "bogus")) ∧
    ((∀ d ∈ oneDoc, Event.rasterize d.pdf_name ∈
      (ingestLocalTrace sampleEnv ⟨false, false, false⟩ false true "ds"
        oneDoc ["bogus"] ["pages"]).1) ∧
    (∀ s ∈ stageChain ⟨false, false, false⟩ false true, Event.stageRun s ∈
      (ingestLocalTrace sampleEnv ⟨false, false, false⟩ false true "ds"
        oneDoc ["bogus"] ["pages"]).1) ∧
    Event.collect ∈ (ingestLocalTrace sampleEnv ⟨false, false, false⟩ false
      true "ds" oneDoc ["bogus"] ["pages"]).1) :=
  have h : (ingestLocalTrace sampleEnv ⟨false, false, false⟩ false true "ds"
      oneDoc ["bogus"] ["pages"]).2 = .error (.configurationError "bogus") := rfl
  ⟨h, aggregation_failure_is_mid_run sampleEnv ⟨false, false, false⟩ false true
    "ds" oneDoc ["bogus"] ["pages"] "bogus" h⟩

/-- Counterexample to C8: a matched rasterizer output file whose final
character is not a digit (`"a.pdf_x"`) makes the per-item page-number parse
raise `Exception`, which nothing catches: the failure surfaces as a run-level
failure even though it is neither a configuration nor an infrastructure
error. -/
theorem malformed_raster_output_aborts_run :
    (ingestLocalTrace sampleEnv ⟨false, false, false⟩ false true "ds"
        [⟨"a.pdf", .ok (), ["a.pdf_x"], 0⟩] [] []).2 =
      .error (.exception "a.pdf_x") := rfl

/-- C8 (amended): `parse_pdf` failures are absorbed per document (the
document yields zero pages), and the rasterizing subprocess's exit status is
never inspected; but malformed rasterizer output — a matched page file whose
final character is not a digit — raises an exception that propagates to the
caller as a run-level failure. -/
theorem raster_failure_propagation
    (env : StageEnv) (cfg : IngestConfig) (v sk : Bool) (ds : String)
    (aggs reg : List String) (name f : String) (ec : Nat) (c : Char)
    (hmatch : globMatch name f = true)
    (hlast : f.data.getLast? = some c)
    (hdigit : charToDigit c = none) :
    (∀ (e0 : PyErr) (name2 : String) (files2 : List String) (ec2 : Nat),
      pdf_to_images_m ⟨name2, .error e0, files2, ec2⟩ = .ok []) ∧
    (∀ (d : Doc) (ec1 ec2 : Nat),
      pdf_to_images_m ⟨d.pdf_name, d.parse, d.gsFiles, ec1⟩ =
        pdf_to_images_m ⟨d.pdf_name, d.parse, d.gsFiles, ec2⟩) ∧
    ingestLocalTrace env cfg v sk ds [⟨name, .ok (), [f], ec⟩] aggs reg =
      (rasterEvents [⟨name, .ok (), [f], ec⟩], .error (.exception f)) := by
  refine ⟨fun e0 name2 files2 ec2 => rfl, fun d ec1 ec2 => rfl, ?_⟩
  have hpn : pageNumOf f = .error (.exception f) := by
    unfold pageNumOf
    simp only [hlast, hdigit]
  have hfilter : [f].filter (globMatch name) = [f] := by
    simp [List.filter, hmatch]
  have hpdf : pdf_to_images_m ⟨name, .ok (), [f], ec⟩ =
      .error (.exception f) := by
    have h0 : pdf_to_images_m ⟨name, .ok (), [f], ec⟩ =
        mapE (fun g => Except.bind (pageNumOf g)
          (fun n => Except.ok (name, n))) ([f].filter (globMatch name)) := rfl
    rw [h0, hfilter, mapE_cons, hpn]
    rfl
  have hruni : runItems [⟨name, .ok (), [f], ec⟩] = .error (.exception f) := by
    unfold runItems
    rw [mapE_cons, hpdf]
    rfl
  exact ingestLocalTrace_raster_error hruni

/-- Witness for C8 (amended) at the concrete malformed file `"a.pdf_x"`. -/
theorem raster_failure_propagation_witness :
    (globMatch "a.pdf" "a.pdf_x" = true) ∧
    (("a.pdf_x" : String).data.getLast? = some 'x') ∧
    (charToDigit 'x' = none) ∧
    ((∀ (e0 : PyErr) (name2 : String) (files2 : List String) (ec2 : Nat),
      pdf_to_images_m ⟨name2, .error e0, files2, ec2⟩ = .ok []) ∧
    (∀ (d : Doc) (ec1 ec2 : Nat),
      pdf_to_images_m ⟨d.pdf_name, d.parse, d.gsFiles, ec1⟩ =
        pdf_to_images_m ⟨d.pdf_name, d.parse, d.gsFiles, ec2⟩) ∧
    ingestLocalTrace sampleEnv ⟨false, false, false⟩ false true "ds"
        [⟨"a.pdf", .ok (), ["a.pdf_x"], 0⟩] [] [] =
      (rasterEvents [⟨"a.pdf", .ok (), ["a.pdf_x"], 0⟩],
        .error (.exception "a.pdf_x"))) :=
  ⟨by decide, by decide, by decide,
    raster_failure_propagation sampleEnv ⟨false, false, false⟩ false true "ds"
      [] [] "a.pdf" "a.pdf_x" 0 'x' (by decide) (by decide) (by decide)⟩

end Cosmos
